import Mathlib

/-!
Verification of the GBM probability engine of the EtherGBM dashboard
(`src/App.tsx`).  The numeric core is embedded over the real numbers; the
two places where JavaScript double semantics genuinely leave the reals
(`Math.log` at zero and the z-score division by a possibly-zero diffusion
term) are threaded through a small `JsVal` type with constructors for
finite numbers, the two infinities and NaN, following the IEEE/JS rules
for exactly the operations the source performs on them.
-/

namespace EtherGBM

/-- Trend bias selected by the user (`type TrendBias` in the source). -/
inductive TrendBias
  | bear
  | neutral
  | bull
deriving DecidableEq

/-- Direction flag of the model output (`'above' | 'below'`). -/
inductive Direction
  | above
  | below
deriving DecidableEq

/-- A JavaScript number as produced by the arithmetic in the source:
either a finite real, one of the two infinities, or NaN. -/
inductive JsVal
  | num (x : ℝ)
  | posInf
  | negInf
  | nan

/-- Standard Normal Cumulative Distribution Function, transliterated from
`cumulativeDistribution` in the source (Abramowitz–Stegun 26.2.17 style
rational-polynomial approximation). -/
noncomputable def cumulativeDistribution (x : ℝ) : ℝ :=
  let t := 1 / (1 + 0.2316419 * |x|)
  let d := 0.39894228040 * Real.exp (-x * x / 2)
  let p := d * t * (0.319381530 + t * (-0.356563782 + t * (1.781477937 + t * (-1.821255978 + t * 1.330274429))))
  if x > 0 then 1 - p else p

/-- JS `Math.log` on a real argument: `log 0 = -Infinity`, negative
arguments give NaN. -/
noncomputable def jsLog (x : ℝ) : JsVal :=
  if 0 < x then .num (Real.log x)
  else if x = 0 then .negInf
  else .nan

/-- JS subtraction `v - r` where `v` may be non-finite and `r` is a
finite real. -/
noncomputable def jsSubR (v : JsVal) (r : ℝ) : JsVal :=
  match v with
  | .num x => .num (x - r)
  | .posInf => .posInf
  | .negInf => .negInf
  | .nan => .nan

/-- JS division `v / d` where the denominator `d` is a finite real
(in the source: `diffusionTerm = sigma * Math.sqrt(t_years)`, whose zero
is always `+0`, so a zero denominator behaves as `+0`):
`a / 0 = ±Infinity` by the sign of `a`, `0 / 0 = NaN`, and an infinite
numerator keeps (or flips, for a negative denominator) its sign. -/
noncomputable def jsDiv (v : JsVal) (d : ℝ) : JsVal :=
  match v with
  | .num a =>
      if d ≠ 0 then .num (a / d)
      else if 0 < a then .posInf
      else if a < 0 then .negInf
      else .nan
  | .posInf => if 0 ≤ d then .posInf else .negInf
  | .negInf => if 0 ≤ d then .negInf else .posInf
  | .nan => .nan

/-- The source's `cumulativeDistribution` evaluated on a possibly
non-finite JS argument.  For `x = +Infinity` the code computes
`t = 1/(1 + 0.2316419*Infinity) = 0`, `d = 0.3989...*exp(-Infinity) = 0`,
`p = 0`, and the `x > 0` branch returns `1`; for `x = -Infinity` it
likewise computes `p = 0` and returns `0`; NaN propagates to NaN
(every comparison with NaN is false, so the final branch returns `p`). -/
noncomputable def cumulativeDistributionJs : JsVal → JsVal
  | .num x => .num (cumulativeDistribution x)
  | .posInf => .num 1
  | .negInf => .num 0
  | .nan => .nan

/-- JS `1 - v` for a possibly non-finite `v`. -/
noncomputable def jsOneSub : JsVal → JsVal
  | .num x => .num (1 - x)
  | .posInf => .negInf
  | .negInf => .posInf
  | .nan => .nan

/-- The immutable input snapshot the `model` memo reads
(`livePrice`, `targetPrice`, `timeMinutes`, `activeVolatility`, `bias`). -/
structure ModelInputs where
  livePrice : ℝ
  targetPrice : ℝ
  timeMinutes : ℝ
  activeVolatility : ℝ
  bias : TrendBias

/-- The object returned by the `model` memo in the source. -/
structure ModelOutputs where
  S : ℝ
  K : ℝ
  t_years : ℝ
  sigma : ℝ
  mu : ℝ
  driftCorrection : ℝ
  driftTerm : ℝ
  diffusionTerm : ℝ
  logReturn : JsVal
  zScore : JsVal
  probability : JsVal
  direction : Direction

/-- Drift as computed by the source: `let mu = 0; if bull mu = 0.5*sigma;
if bear mu = -0.5*sigma`. -/
noncomputable def muOf (b : TrendBias) (sigma : ℝ) : ℝ :=
  match b with
  | .bull => 0.5 * sigma
  | .bear => -0.5 * sigma
  | .neutral => 0

/-- The probabilistic model, transliterated from the `model` memo body
(the part after the `!livePrice` guard). -/
noncomputable def model (inp : ModelInputs) : ModelOutputs :=
  let S := inp.livePrice
  let K := inp.targetPrice
  let t_years := inp.timeMinutes / 525600
  let sigma := inp.activeVolatility / 100
  let mu := muOf inp.bias sigma
  let logReturn := jsLog (K / S)
  let driftCorrection := mu - 0.5 * sigma ^ 2
  let driftTerm := driftCorrection * t_years
  let diffusionTerm := sigma * Real.sqrt t_years
  let numerator := jsSubR logReturn driftTerm
  let zScore := jsDiv numerator diffusionTerm
  let cdf := cumulativeDistributionJs zScore
  let probability := if K > S then jsOneSub cdf else cdf
  let direction := if K > S then Direction.above else Direction.below
  { S := S, K := K, t_years := t_years, sigma := sigma, mu := mu,
    driftCorrection := driftCorrection, driftTerm := driftTerm,
    diffusionTerm := diffusionTerm, logReturn := logReturn,
    zScore := zScore, probability := probability, direction := direction }

/-- The `if (!livePrice) return null` guard of the `model` memo:
a `null` (or zero) live price suppresses the computation entirely. -/
noncomputable def modelOpt (livePrice : Option ℝ) (targetPrice timeMinutes activeVolatility : ℝ)
    (bias : TrendBias) : Option ModelOutputs :=
  match livePrice with
  | none => none
  | some S => if S = 0 then none
              else some (model ⟨S, targetPrice, timeMinutes, activeVolatility, bias⟩)

/-- The numeric core of the target-price `onChange` handler:
`setTargetPrice(parseFloat(e.target.value) || 0)`.  `parsed = none`
stands for an unparseable field (`parseFloat` returns NaN, which is
falsy, so `|| 0` yields `0`); a parsed `0` is also falsy and yields `0`;
every other parsed value, including negative ones, is stored as typed. -/
noncomputable def targetOnChange (parsed : Option ℝ) : ℝ :=
  match parsed with
  | none => 0
  | some v => if v = 0 then 0 else v

/-- One chart point, as built by the `chartData` memo for projection
points (history points carry `price` and leave the rest undefined). -/
structure ChartPoint where
  timestamp : ℝ
  price : Option ℝ
  mean : Option ℝ
  sigma1 : Option (ℝ × ℝ)
  sigma2 : Option (ℝ × ℝ)
  sigma3 : Option (ℝ × ℝ)

/-- `calcBounds` from the `chartData` memo: the n-sigma cone bounds
`[lower, upper]` at total drift and diffusion values. -/
noncomputable def calcBounds (livePrice totalDrift totalDiffusion : ℝ) (n : ℝ) : ℝ × ℝ :=
  (livePrice * Real.exp (totalDrift - n * totalDiffusion),
   livePrice * Real.exp (totalDrift + n * totalDiffusion))

/-- The body of the projection loop of `chartData` at index `i`
(`0 ≤ i ≤ steps`): the bridge point at `i = 0`, the drift/diffusion
cone point otherwise.  `now` is the wall-clock time (`Date.now()`)
captured once per recomputation. -/
noncomputable def projectionPoint (livePrice driftCorrection sigma timeMinutes now : ℝ)
    (steps : ℕ) (i : ℕ) : ChartPoint :=
  let timeStepMinutes := timeMinutes / steps
  let stepTimeMinutes := i * timeStepMinutes
  let stepT := stepTimeMinutes / 525600
  let futureTimestamp := now + stepTimeMinutes * 60 * 1000
  if i = 0 then
    { timestamp := futureTimestamp, price := none, mean := some livePrice,
      sigma1 := some (livePrice, livePrice),
      sigma2 := some (livePrice, livePrice),
      sigma3 := some (livePrice, livePrice) }
  else
    let totalDrift := driftCorrection * stepT
    let totalDiffusion := sigma * Real.sqrt stepT
    { timestamp := futureTimestamp, price := none,
      mean := some (livePrice * Real.exp totalDrift),
      sigma1 := some (calcBounds livePrice totalDrift totalDiffusion 1),
      sigma2 := some (calcBounds livePrice totalDrift totalDiffusion 2),
      sigma3 := some (calcBounds livePrice totalDrift totalDiffusion 3) }

/-- The full projection sequence of `chartData` (`for i = 0..steps`);
the source uses `steps = 40`. -/
noncomputable def projectionData (livePrice driftCorrection sigma timeMinutes now : ℝ)
    (steps : ℕ) : List ChartPoint :=
  (List.range (steps + 1)).map (projectionPoint livePrice driftCorrection sigma timeMinutes now steps)

/-- The cone rebuilt from the `ModelOutputs` alone (plus the step count):
spot is the `S` field, the drift and diffusion coefficients are the
`driftCorrection` and `sigma` fields, and the horizon is recovered
exactly from `t_years` (`t_years = timeMinutes / 525600`). -/
noncomputable def coneFromOutputs (out : ModelOutputs) (steps : ℕ) : List ChartPoint :=
  projectionData out.S out.driftCorrection out.sigma (out.t_years * 525600) 0 steps

/-- Outcome of one DVOL poll in `fetchDvol`, classified by how the
`try` block plays out: the request itself fails (network error or a
non-ok response, which is thrown explicitly); the request succeeds but
reading `data.result.index_price` throws (no usable `result` object in
the body, or an unparseable body); or the request succeeds and the
`index_price` field is read (absent, so `undefined`, or a number). -/
inductive DvolFetchOutcome
  | requestFailed
  | okNoResult
  | okResult (index_price : Option ℝ)

/-- State transition of one `fetchDvol` poll on `(liveVol, isVolEstimated)`:
both throwing paths land in the `catch` block which sets `(60, true)`;
a read `index_price` updates the state only when truthy
(`if (dvol) { setLiveVol(dvol); setIsVolEstimated(false); }`). -/
noncomputable def fetchDvol (outcome : DvolFetchOutcome) (st : ℝ × Bool) : ℝ × Bool :=
  match outcome with
  | .requestFailed => (60, true)
  | .okNoResult => (60, true)
  | .okResult none => st
  | .okResult (some dvol) => if dvol = 0 then st else (dvol, false)

/-- One observed price tick retained for display (`HistoryPoint`). -/
structure HistoryPoint where
  timestamp : ℝ
  price : ℝ

/-- The history part of `chartData`: each retained tick becomes a chart
point carrying only `price`. -/
noncomputable def historyData (history : List HistoryPoint) : List ChartPoint :=
  history.map (fun h =>
    { timestamp := h.timestamp, price := some h.price, mean := none,
      sigma1 := none, sigma2 := none, sigma3 := none })

/-- The full `chartData` memo result: history followed by the 40-step
projection cone driven by the model's drift correction and sigma. -/
noncomputable def chartData (history : List HistoryPoint) (livePrice : ℝ)
    (out : ModelOutputs) (timeMinutes now : ℝ) : List ChartPoint :=
  historyData history ++ projectionData livePrice out.driftCorrection out.sigma timeMinutes now 40

/-- The degree-4 polynomial factor of the Abramowitz–Stegun tail. -/
noncomputable def polyP (t : ℝ) : ℝ :=
  0.319381530 + t * (-0.356563782 + t * (1.781477937 + t * (-1.821255978 + t * 1.330274429)))

/-- The one-sided tail value `p` computed by `cumulativeDistribution`
for a non-negative argument `z` (where `|x| = x`). -/
noncomputable def tailP (z : ℝ) : ℝ :=
  0.39894228040 * Real.exp (-z * z / 2) * (1 / (1 + 0.2316419 * z))
    * polyP (1 / (1 + 0.2316419 * z))

/-- The z-score of the model, as a real number, meaningful on positive
inputs (same arithmetic as step 6 of the `model` memo). -/
noncomputable def zReal (inp : ModelInputs) : ℝ :=
  (Real.log (inp.targetPrice / inp.livePrice)
    - (muOf inp.bias (inp.activeVolatility / 100) - 0.5 * (inp.activeVolatility / 100) ^ 2)
      * (inp.timeMinutes / 525600))
    / ((inp.activeVolatility / 100) * Real.sqrt (inp.timeMinutes / 525600))

/-- The at-target scenario of §8 of the spec: spot 3000, target 3000,
horizon 10 minutes, volatility 60 percent, neutral bias. -/
noncomputable def atTargetInputs : ModelInputs := ⟨3000, 3000, 10, 60, TrendBias.neutral⟩

/-- The z-score the model computes in the at-target scenario. -/
noncomputable def z4 : ℝ := zReal atTargetInputs

/-! ### Analytic helper layer for the CDF approximation -/

lemma cdf_of_pos {x : ℝ} (hx : 0 < x) : cumulativeDistribution x = 1 - tailP x := by
  simp only [cumulativeDistribution, tailP, polyP, abs_of_pos hx, if_pos hx]

lemma cdf_of_nonpos {x : ℝ} (hx : x ≤ 0) : cumulativeDistribution x = tailP (-x) := by
  have hnx : ¬(x > 0) := not_lt.2 hx
  simp only [cumulativeDistribution, tailP, polyP, abs_of_nonpos hx, if_neg hnx]
  ring_nf

lemma polyP_ge {t : ℝ} (h0 : 0 ≤ t) (h1 : t ≤ 1) : 0.29 ≤ polyP t := by
  unfold polyP
  nlinarith [sq_nonneg (t - 0.1), sq_nonneg (t * t - 0.2 * t), mul_nonneg h0 h0,
    mul_nonneg (mul_nonneg h0 h0) h0, sq_nonneg (t * t - t), mul_nonneg (sub_nonneg.2 h1) h0]

/-- `t * polyP t` is monotone on `[0, 1]`; this is the polynomial heart of
the monotonicity of the CDF approximation. -/
lemma qP_mono {a b : ℝ} (ha : 0 ≤ a) (hab : a ≤ b) (hb : b ≤ 1) :
    a * polyP a ≤ b * polyP b := by
  have hs0 : 0 ≤ a + b := by linarith
  have hs2 : a + b ≤ 2 := by linarith
  have hp0 : 0 ≤ a * b := mul_nonneg ha (le_trans ha hab)
  have hp : 4 * (a * b) ≤ (a + b) ^ 2 := by nlinarith [sq_nonneg (a - b)]
  have hK : 0 ≤ 1.781477937 + 2 * (-1.821255978) * (a + b) + 3 * 1.330274429 * (a + b) ^ 2 := by
    nlinarith [sq_nonneg (a + b - 0.45635)]
  have hF : 0 ≤ 0.319381530 + (-0.356563782) * (a + b) + 0.75 * 1.781477937 * (a + b) ^ 2
      + 0.5 * (-1.821255978) * (a + b) ^ 3 + 0.25 * 1.330274429 * (a + b) ^ 4 := by
    nlinarith [sq_nonneg (a + b - 0.15), sq_nonneg ((a + b) * (a + b) - 0.3 * (a + b)),
      sq_nonneg ((a + b) * (a + b) - (a + b)), mul_nonneg hs0 hs0,
      mul_nonneg (mul_nonneg hs0 hs0) hs0, sq_nonneg ((a + b) * (a + b) - 2 * (a + b)),
      mul_nonneg (sub_nonneg.2 hs2) hs0]
  have hfac : b * polyP b - a * polyP a
      = (b - a) * (0.319381530 + (-0.356563782) * (a + b)
        + 1.781477937 * (a ^ 2 + a * b + b ^ 2)
        + (-1.821255978) * (a ^ 3 + a ^ 2 * b + a * b ^ 2 + b ^ 3)
        + 1.330274429 * (a ^ 4 + a ^ 3 * b + a ^ 2 * b ^ 2 + a * b ^ 3 + b ^ 4)) := by
    unfold polyP; ring
  have key : 0 ≤ b * polyP b - a * polyP a := by
    rw [hfac]
    apply mul_nonneg (by linarith)
    nlinarith [hF, mul_le_mul_of_nonneg_right hp hK, mul_nonneg hp0 hp0, sq_nonneg (a - b)]
  linarith

/-- The tail is strictly decreasing on `[0, ∞)`. -/
lemma tailP_strictAnti {z₁ z₂ : ℝ} (h0 : 0 ≤ z₁) (h : z₁ < z₂) : tailP z₂ < tailP z₁ := by
  have hu1 : (0:ℝ) < 1 + 0.2316419 * z₁ := by nlinarith
  have hu2 : (0:ℝ) < 1 + 0.2316419 * z₂ := by nlinarith
  set t₁ := 1 / (1 + 0.2316419 * z₁) with ht₁
  set t₂ := 1 / (1 + 0.2316419 * z₂) with ht₂
  have ht₁pos : 0 < t₁ := by positivity
  have ht₂pos : 0 < t₂ := by positivity
  have ht₁le : t₁ ≤ 1 := by
    rw [ht₁, div_le_one hu1]; nlinarith
  have htle : t₂ ≤ t₁ := by
    rw [ht₁, ht₂]
    apply one_div_le_one_div_of_le hu1
    nlinarith
  have hQ : t₂ * polyP t₂ ≤ t₁ * polyP t₁ := qP_mono ht₂pos.le htle ht₁le
  have hQpos : 0 < t₂ * polyP t₂ :=
    mul_pos ht₂pos (lt_of_lt_of_le (by norm_num) (polyP_ge ht₂pos.le (le_trans htle ht₁le)))
  have hexp : Real.exp (-z₂ * z₂ / 2) < Real.exp (-z₁ * z₁ / 2) := by
    apply Real.exp_lt_exp.2; nlinarith
  have e1 : tailP z₁ = 0.39894228040 * Real.exp (-z₁ * z₁ / 2) * (t₁ * polyP t₁) := by
    rw [tailP]; ring
  have e2 : tailP z₂ = 0.39894228040 * Real.exp (-z₂ * z₂ / 2) * (t₂ * polyP t₂) := by
    rw [tailP]; ring
  rw [e1, e2]
  nlinarith [mul_pos (sub_pos.2 hexp) hQpos,
    mul_nonneg (Real.exp_pos (-z₁ * z₁ / 2)).le (sub_nonneg.2 hQ)]

lemma tailP_zero_lt_half : tailP 0 < 1 / 2 := by
  norm_num [tailP, polyP, Real.exp_zero]

/-- The source's CDF approximation is strictly increasing. -/
lemma cdf_lt_cdf {x y : ℝ} (h : x < y) : cumulativeDistribution x < cumulativeDistribution y := by
  rcases le_or_lt y 0 with hy | hy
  · rw [cdf_of_nonpos (le_trans h.le hy), cdf_of_nonpos hy]
    exact tailP_strictAnti (neg_nonneg.2 hy) (by linarith)
  · rcases le_or_lt x 0 with hx | hx
    · rw [cdf_of_nonpos hx, cdf_of_pos hy]
      have h2 : tailP y < tailP 0 := tailP_strictAnti le_rfl hy
      have h3 : tailP 0 < 1 / 2 := tailP_zero_lt_half
      have h1 : tailP (-x) ≤ tailP 0 := by
        rcases eq_or_lt_of_le hx with he | hlt
        · rw [he]; norm_num
        · exact (tailP_strictAnti le_rfl (by linarith)).le
      linarith
    · rw [cdf_of_pos hx, cdf_of_pos hy]
      have := tailP_strictAnti hx.le h
      linarith

/-! ### Real-valued reduction of the model on positive inputs -/

/-- On positive spot, target, horizon and volatility the model's JS values
are ordinary reals: the z-score is `zReal` and the probability is the
direction-selected tail of the CDF approximation at it. -/
lemma model_real_reduction (inp : ModelInputs) (hS : 0 < inp.livePrice)
    (hK : 0 < inp.targetPrice) (hm : 0 < inp.timeMinutes) (hv : 0 < inp.activeVolatility) :
    (model inp).zScore = JsVal.num (zReal inp) ∧
    (model inp).direction
      = (if inp.targetPrice > inp.livePrice then Direction.above else Direction.below) ∧
    (model inp).probability = JsVal.num (if inp.targetPrice > inp.livePrice
      then 1 - cumulativeDistribution (zReal inp) else cumulativeDistribution (zReal inp)) := by
  have ht : (0:ℝ) < inp.timeMinutes / 525600 := by positivity
  have hsqrt : 0 < Real.sqrt (inp.timeMinutes / 525600) := Real.sqrt_pos.mpr ht
  have hsig : (0:ℝ) < inp.activeVolatility / 100 := by positivity
  have hd : (inp.activeVolatility / 100) * Real.sqrt (inp.timeMinutes / 525600) ≠ 0 :=
    (mul_pos hsig hsqrt).ne'
  have hKS : (0:ℝ) < inp.targetPrice / inp.livePrice := div_pos hK hS
  have hlog : jsLog (inp.targetPrice / inp.livePrice)
      = JsVal.num (Real.log (inp.targetPrice / inp.livePrice)) := by
    rw [jsLog, if_pos hKS]
  have hz : (model inp).zScore = JsVal.num (zReal inp) := by
    show jsDiv (jsSubR (jsLog (inp.targetPrice / inp.livePrice))
        ((muOf inp.bias (inp.activeVolatility / 100)
          - 0.5 * (inp.activeVolatility / 100) ^ 2) * (inp.timeMinutes / 525600)))
      ((inp.activeVolatility / 100) * Real.sqrt (inp.timeMinutes / 525600))
      = JsVal.num (zReal inp)
    rw [hlog]
    simp only [jsSubR, jsDiv]
    rw [if_pos hd]
    rfl
  refine ⟨hz, rfl, ?_⟩
  have hprob : (model inp).probability
      = (if inp.targetPrice > inp.livePrice
          then jsOneSub (cumulativeDistributionJs ((model inp).zScore))
          else cumulativeDistributionJs ((model inp).zScore)) := rfl
  rw [hprob, hz]
  by_cases hab : inp.targetPrice > inp.livePrice
  · rw [if_pos hab, if_pos hab]; rfl
  · rw [if_neg hab, if_neg hab]; rfl

/-! ### Claim theorems -/

/-- C7: for every real z, the CDF approximation satisfies
`Φ(z) + Φ(−z) ≈ 1` within 1e-6 absolute error (it is exact for `z ≠ 0`,
and off by about 5e-11 at `z = 0` where both branches return the tail). -/
theorem cdf_reflection_sum (z : ℝ) :
    |cumulativeDistribution z + cumulativeDistribution (-z) - 1| ≤ 1 / 1000000 := by
  rcases lt_trichotomy z 0 with hz | hz | hz
  · rw [cdf_of_nonpos hz.le, cdf_of_pos (neg_pos.2 hz)]
    have h : tailP (-z) + (1 - tailP (-z)) - 1 = 0 := by ring
    rw [h]
    norm_num
  · subst hz
    rw [neg_zero, cdf_of_nonpos le_rfl, neg_zero]
    have h : tailP 0 + tailP 0 - 1 = 2 * tailP 0 - 1 := by ring
    rw [h]
    rw [abs_le]
    norm_num [tailP, polyP, Real.exp_zero]
  · rw [cdf_of_pos hz, cdf_of_nonpos (neg_nonpos.2 hz.le), neg_neg]
    have h : 1 - tailP z + tailP z - 1 = 0 := by ring
    rw [h]
    norm_num

/-- C1: on positive inputs the model's probability is
`1 − Φ(zScore)` when the direction is above and `Φ(zScore)` when below,
and the direction flag is above exactly when target > spot (strict
comparison), independent of the sign of the z-score. -/
theorem probability_tail_selection (inp : ModelInputs) (hS : 0 < inp.livePrice)
    (hK : 0 < inp.targetPrice) (hm : 0 < inp.timeMinutes) (hv : 0 < inp.activeVolatility) :
    (model inp).zScore = JsVal.num (zReal inp) ∧
    (model inp).direction
      = (if inp.targetPrice > inp.livePrice then Direction.above else Direction.below) ∧
    (model inp).probability = JsVal.num (if inp.targetPrice > inp.livePrice
      then 1 - cumulativeDistribution (zReal inp) else cumulativeDistribution (zReal inp)) :=
  model_real_reduction inp hS hK hm hv

/-- Witness for C1 at spot 3000, target 3100, horizon 10, volatility 60. -/
theorem probability_tail_selection_witness :
    (0:ℝ) < 3000 ∧ (0:ℝ) < 3100 ∧ (0:ℝ) < 10 ∧ (0:ℝ) < 60 ∧
    ((model ⟨3000, 3100, 10, 60, TrendBias.neutral⟩).zScore
        = JsVal.num (zReal ⟨3000, 3100, 10, 60, TrendBias.neutral⟩) ∧
      (model ⟨3000, 3100, 10, 60, TrendBias.neutral⟩).direction
        = (if (3100:ℝ) > 3000 then Direction.above else Direction.below) ∧
      (model ⟨3000, 3100, 10, 60, TrendBias.neutral⟩).probability
        = JsVal.num (if (3100:ℝ) > 3000
            then 1 - cumulativeDistribution (zReal ⟨3000, 3100, 10, 60, TrendBias.neutral⟩)
            else cumulativeDistribution (zReal ⟨3000, 3100, 10, 60, TrendBias.neutral⟩))) :=
  ⟨by norm_num, by norm_num, by norm_num, by norm_num,
    probability_tail_selection ⟨3000, 3100, 10, 60, TrendBias.neutral⟩
      (by norm_num) (by norm_num) (by norm_num) (by norm_num)⟩

/-- C2 (failing input): with zero volatility and target exactly at spot,
the model computes `zScore = 0 / 0 = NaN` and the probability is NaN —
the zero-diffusion division is not special-cased, so NaN reaches the
displayed probability. -/
theorem degenerate_at_target_probability_nan :
    (model ⟨3000, 3000, 10, 0, TrendBias.neutral⟩).zScore = JsVal.nan ∧
    (model ⟨3000, 3000, 10, 0, TrendBias.neutral⟩).probability = JsVal.nan := by
  have h1 : ((3000:ℝ)) / 3000 = 1 := by norm_num
  have hz : (model ⟨3000, 3000, 10, 0, TrendBias.neutral⟩).zScore = JsVal.nan := by
    show jsDiv (jsSubR (jsLog ((3000:ℝ) / 3000))
        ((muOf TrendBias.neutral ((0:ℝ) / 100) - 0.5 * ((0:ℝ) / 100) ^ 2) * ((10:ℝ) / 525600)))
      (((0:ℝ) / 100) * Real.sqrt ((10:ℝ) / 525600)) = JsVal.nan
    rw [h1, jsLog, if_pos (by norm_num : (0:ℝ) < 1), Real.log_one]
    simp only [jsSubR, jsDiv, muOf]
    norm_num
  refine ⟨hz, ?_⟩
  have hprob : (model ⟨3000, 3000, 10, 0, TrendBias.neutral⟩).probability
      = (if (3000:ℝ) > 3000
          then jsOneSub (cumulativeDistributionJs
            ((model ⟨3000, 3000, 10, 0, TrendBias.neutral⟩).zScore))
          else cumulativeDistributionJs
            ((model ⟨3000, 3000, 10, 0, TrendBias.neutral⟩).zScore)) := rfl
  rw [hprob, hz, if_neg (by norm_num : ¬((3000:ℝ) > 3000))]
  rfl

/-- C3 (failing input): an unparseable target field is stored as `0`
(`parseFloat(v) || 0`), a typed negative target is stored as typed, and
the model is still computed with a non-positive target (here target 0,
yielding `logReturn = -Infinity` and probability 0), instead of the
update being ignored and the last valid inputs retained. -/
theorem nonpositive_target_accepted_and_computed :
    targetOnChange none = 0 ∧
    targetOnChange (some (-5)) = -5 ∧
    modelOpt (some 3000) 0 10 60 TrendBias.neutral
      = some (model ⟨3000, 0, 10, 60, TrendBias.neutral⟩) ∧
    (model ⟨3000, 0, 10, 60, TrendBias.neutral⟩).probability = JsVal.num 0 := by
  refine ⟨rfl, ?_, ?_, ?_⟩
  · rw [targetOnChange]
    norm_num
  · rw [modelOpt]
    norm_num
  · have hz : (model ⟨3000, 0, 10, 60, TrendBias.neutral⟩).zScore = JsVal.negInf := by
      show jsDiv (jsSubR (jsLog ((0:ℝ) / 3000))
          ((muOf TrendBias.neutral ((60:ℝ) / 100) - 0.5 * ((60:ℝ) / 100) ^ 2) * ((10:ℝ) / 525600)))
        (((60:ℝ) / 100) * Real.sqrt ((10:ℝ) / 525600)) = JsVal.negInf
      have h0 : ((0:ℝ)) / 3000 = 0 := by norm_num
      rw [h0, jsLog, if_neg (by norm_num : ¬((0:ℝ) < 0)), if_pos rfl]
      simp only [jsSubR, jsDiv]
      rw [if_pos]
      positivity
    have hprob : (model ⟨3000, 0, 10, 60, TrendBias.neutral⟩).probability
        = (if (0:ℝ) > 3000
            then jsOneSub (cumulativeDistributionJs
              ((model ⟨3000, 0, 10, 60, TrendBias.neutral⟩).zScore))
            else cumulativeDistributionJs
              ((model ⟨3000, 0, 10, 60, TrendBias.neutral⟩).zScore)) := rfl
    rw [hprob, hz, if_neg (by norm_num : ¬((0:ℝ) > 3000))]
    rfl

/-- C10 (counterexample): an ok response whose body has no usable
`result` object throws inside the `try` and lands in the same fallback
as a network failure, so the 60-percent/estimated fallback is not
triggered only by failed requests. -/
theorem ok_without_result_triggers_fallback :
    fetchDvol DvolFetchOutcome.okNoResult (50, false) = (60, true) ∧
    DvolFetchOutcome.okNoResult ≠ DvolFetchOutcome.requestFailed := by
  refine ⟨rfl, ?_⟩
  intro h
  cases h

/-- C10 (amended): a successful response with an absent or zero index
value leaves `(liveVol, isVolEstimated)` unchanged; a failed request or
a success without a usable `result` object sets the `(60, true)`
fallback; a nonzero index installs the value and clears the flag. -/
theorem dvol_update_policy (vol : ℝ) (est : Bool) :
    fetchDvol (DvolFetchOutcome.okResult none) (vol, est) = (vol, est) ∧
    fetchDvol (DvolFetchOutcome.okResult (some 0)) (vol, est) = (vol, est) ∧
    fetchDvol DvolFetchOutcome.requestFailed (vol, est) = (60, true) ∧
    fetchDvol DvolFetchOutcome.okNoResult (vol, est) = (60, true) ∧
    ∀ dvol : ℝ, dvol ≠ 0 →
      fetchDvol (DvolFetchOutcome.okResult (some dvol)) (vol, est) = (dvol, false) := by
  refine ⟨rfl, ?_, rfl, rfl, ?_⟩
  · rw [fetchDvol, if_pos rfl]
  · intro dvol hd
    rw [fetchDvol, if_neg hd]

/-- Witness for C10's amended theorem at concrete state and index. -/
theorem dvol_update_policy_witness :
    fetchDvol (DvolFetchOutcome.okResult none) (50, false) = (50, false) ∧
    (55:ℝ) ≠ 0 ∧
    fetchDvol (DvolFetchOutcome.okResult (some 55)) (50, false) = (55, false) :=
  ⟨(dvol_update_policy 50 false).1, by norm_num,
    (dvol_update_policy 50 false).2.2.2.2 55 (by norm_num)⟩

/-- C5: the projection sequence has exactly 41 points and its first
point is the bridge: mean exactly the spot and all three sigma bands
exactly `[spot, spot]`. -/
theorem cone_bridge_and_length (livePrice driftCorrection sigma timeMinutes now : ℝ) :
    (projectionData livePrice driftCorrection sigma timeMinutes now 40).length = 41 ∧
    (projectionData livePrice driftCorrection sigma timeMinutes now 40).head?
      = some { timestamp := now, price := none, mean := some livePrice,
               sigma1 := some (livePrice, livePrice),
               sigma2 := some (livePrice, livePrice),
               sigma3 := some (livePrice, livePrice) } := by
  constructor
  · rw [projectionData, List.length_map, List.length_range]
  · rw [projectionData, List.range_succ_eq_map]
    simp only [List.map_cons, List.head?_cons]
    rw [projectionPoint]
    norm_num

/-- C6: every projection point has nested bands around the mean:
`band_n.lower ≤ mean ≤ band_n.upper`, `band_n.upper ≤ band_(n+1).upper`
and `band_(n+1).lower ≤ band_n.lower` for n = 1, 2, given a positive
spot and non-negative sigma. -/
theorem cone_band_nesting (livePrice driftCorrection sigma timeMinutes now : ℝ)
    (steps : ℕ) (hS : 0 < livePrice) (hsig : 0 ≤ sigma) :
    ∀ cp ∈ projectionData livePrice driftCorrection sigma timeMinutes now steps,
      ∀ mp l1 u1 l2 u2 l3 u3,
        cp.mean = some mp → cp.sigma1 = some (l1, u1) → cp.sigma2 = some (l2, u2) →
        cp.sigma3 = some (l3, u3) →
        l1 ≤ mp ∧ mp ≤ u1 ∧ u1 ≤ u2 ∧ u2 ≤ u3 ∧ l3 ≤ l2 ∧ l2 ≤ l1 := by
  intro cp hcp mp l1 u1 l2 u2 l3 u3 hmp h1 h2 h3
  rw [projectionData, List.mem_map] at hcp
  obtain ⟨i, _, rfl⟩ := hcp
  by_cases h0 : i = 0
  · subst h0
    rw [projectionPoint, if_pos (rfl : (0:ℕ) = 0)] at hmp h1 h2 h3
    simp only [Option.some.injEq, Prod.mk.injEq] at hmp h1 h2 h3
    obtain ⟨rfl, rfl⟩ := h1
    obtain ⟨rfl, rfl⟩ := h2
    obtain ⟨rfl, rfl⟩ := h3
    subst hmp
    refine ⟨le_rfl, le_rfl, le_rfl, le_rfl, le_rfl, le_rfl⟩
  · rw [projectionPoint, if_neg h0] at hmp h1 h2 h3
    simp only [calcBounds, Option.some.injEq, Prod.mk.injEq] at hmp h1 h2 h3
    obtain ⟨rfl, rfl⟩ := h1
    obtain ⟨rfl, rfl⟩ := h2
    obtain ⟨rfl, rfl⟩ := h3
    subst hmp
    have hF : 0 ≤ sigma * Real.sqrt ((i : ℝ) * (timeMinutes / (steps : ℝ)) / 525600) :=
      mul_nonneg hsig (Real.sqrt_nonneg _)
    refine ⟨?_, ?_, ?_, ?_, ?_, ?_⟩ <;>
      exact mul_le_mul_of_nonneg_left (Real.exp_le_exp.2 (by nlinarith)) hS.le

/-- Witness for C6 at a concrete cone and its bridge point. -/
theorem cone_band_nesting_witness :
    (0:ℝ) < 3000 ∧ (0:ℝ) ≤ 0.6 ∧
    ((3000:ℝ) ≤ 3000 ∧ (3000:ℝ) ≤ 3000 ∧ (3000:ℝ) ≤ 3000 ∧ (3000:ℝ) ≤ 3000 ∧
      (3000:ℝ) ≤ 3000 ∧ (3000:ℝ) ≤ 3000) := by
  refine ⟨by norm_num, by norm_num, ?_⟩
  have hmem : projectionPoint 3000 (-0.18) 0.6 10 0 40 0
      ∈ projectionData 3000 (-0.18) 0.6 10 0 40 := by
    rw [projectionData, List.mem_map]
    exact ⟨0, by simp, rfl⟩
  have hpt : projectionPoint 3000 (-0.18) 0.6 10 0 40 0
      = { timestamp := 0, price := none, mean := some 3000,
          sigma1 := some (3000, 3000), sigma2 := some (3000, 3000),
          sigma3 := some (3000, 3000) } := by
    rw [projectionPoint]
    norm_num
  exact cone_band_nesting 3000 (-0.18) 0.6 10 0 40 (by norm_num) (by norm_num)
    (projectionPoint 3000 (-0.18) 0.6 10 0 40 0) hmem
    3000 3000 3000 3000 3000 3000 3000
    (by rw [hpt]) (by rw [hpt]) (by rw [hpt]) (by rw [hpt])

/-- C9 (counterexample): with all model inputs and the step count held
fixed, the projection sequence still differs between two computations at
different wall-clock times, because every point's timestamp is offset
from `Date.now()` — the cone is not independent of ambient state. -/
theorem cone_depends_on_ambient_now :
    projectionData 3000 (-0.18) 0.6 10 0 40 ≠ projectionData 3000 (-0.18) 0.6 10 1 40 := by
  intro h
  have h0 := congrArg (fun l => List.head? l) h
  rw [projectionData, projectionData, List.range_succ_eq_map] at h0
  simp only [List.map_cons, List.head?_cons, Option.some.injEq] at h0
  have ht := congrArg ChartPoint.timestamp h0
  rw [projectionPoint, projectionPoint] at ht
  norm_num at ht

/-- C9 (amended): the mean and band values of every cone point are fully
determined by the ModelOutputs and the step count; the absolute
timestamps are those of the clock-zero cone shifted by the ambient
`Date.now()` value. -/
theorem cone_determined_by_outputs (inp : ModelInputs) (now : ℝ) (steps : ℕ) :
    projectionData inp.livePrice (model inp).driftCorrection (model inp).sigma
        inp.timeMinutes now steps
      = (coneFromOutputs (model inp) steps).map
          (fun cp => { cp with timestamp := cp.timestamp + now }) := by
  have hm : (model inp).t_years * 525600 = inp.timeMinutes := by
    show inp.timeMinutes / 525600 * 525600 = inp.timeMinutes
    field_simp
  rw [coneFromOutputs]
  show projectionData inp.livePrice (model inp).driftCorrection (model inp).sigma
      inp.timeMinutes now steps
    = (projectionData inp.livePrice (model inp).driftCorrection (model inp).sigma
        ((model inp).t_years * 525600) 0 steps).map
          (fun cp => { cp with timestamp := cp.timestamp + now })
  rw [hm, projectionData, projectionData, List.map_map]
  apply List.map_congr_left
  intro i _
  simp only [Function.comp_apply]
  by_cases h0 : i = 0
  · rw [projectionPoint, projectionPoint, if_pos h0, if_pos h0]
    simp only [ChartPoint.mk.injEq]
    refine ⟨by ring, ?_, ?_, ?_, ?_, ?_⟩ <;> trivial
  · rw [projectionPoint, projectionPoint, if_neg h0, if_neg h0]
    simp only [ChartPoint.mk.injEq]
    refine ⟨by ring, ?_, ?_, ?_, ?_, ?_⟩ <;> trivial

/-! ### Numeric facts for the at-target scenario (C4) -/

lemma z4_eq : z4 = (0.18 * (10 / 525600)) / (0.6 * Real.sqrt (10 / 525600)) := by
  rw [z4, zReal]
  show (Real.log ((3000:ℝ) / 3000)
      - (muOf TrendBias.neutral ((60:ℝ) / 100) - 0.5 * ((60:ℝ) / 100) ^ 2) * ((10:ℝ) / 525600))
      / (((60:ℝ) / 100) * Real.sqrt ((10:ℝ) / 525600))
    = (0.18 * (10 / 525600)) / (0.6 * Real.sqrt (10 / 525600))
  rw [show ((3000:ℝ) / 3000) = 1 by norm_num, Real.log_one]
  norm_num [muOf]

lemma sqrt_t4_gt : (1:ℝ) / 297 < Real.sqrt (10 / 525600) := by
  rw [show (10:ℝ) / 525600 = 1 / 52560 by norm_num]
  have h : ((1:ℝ) / 297) ^ 2 < 1 / 52560 := by norm_num
  nlinarith [Real.sq_sqrt (show (0:ℝ) ≤ 1 / 52560 by norm_num),
    Real.sqrt_nonneg ((1:ℝ) / 52560), h]

lemma z4_pos : 0 < z4 := by
  rw [z4_eq]
  positivity

lemma z4_lt : z4 < 0.0017 := by
  rw [z4_eq]
  have hw := sqrt_t4_gt
  have hd : (0:ℝ) < 0.6 * Real.sqrt (10 / 525600) := by positivity
  rw [div_lt_iff hd]
  nlinarith [hw]

/-- For a small positive z-score the CDF approximation stays within 1/100
of one half. -/
lemma cdf_near_half {z : ℝ} (h0 : 0 < z) (h1 : z < 0.0017) :
    |cumulativeDistribution z - 1 / 2| < 1 / 100 := by
  rw [cdf_of_pos h0]
  have hu : (0:ℝ) < 1 + 0.2316419 * z := by nlinarith
  have htpos : 0 < 1 / (1 + 0.2316419 * z) := by positivity
  have ht1 : 1 / (1 + 0.2316419 * z) ≤ 1 := by
    rw [div_le_one hu]; nlinarith
  have ht0 : 0.9996 ≤ 1 / (1 + 0.2316419 * z) := by
    rw [le_div_iff hu]; nlinarith
  have hP1 : polyP (1 / (1 + 0.2316419 * z)) ≤ 1.26 := by
    unfold polyP
    set t := 1 / (1 + 0.2316419 * z) with htdef
    nlinarith [sq_nonneg (t - 1), sq_nonneg (t * t - t), mul_nonneg htpos.le htpos.le,
      mul_nonneg (mul_nonneg htpos.le htpos.le) htpos.le,
      mul_nonneg (sub_nonneg.2 ht1) htpos.le, sq_nonneg (t * t - 1),
      mul_nonneg (sub_nonneg.2 ht1) (sub_nonneg.2 ht1)]
  have hP0 : 1.24 ≤ polyP (1 / (1 + 0.2316419 * z)) := by
    unfold polyP
    set t := 1 / (1 + 0.2316419 * z) with htdef
    nlinarith [sq_nonneg (t - 1), sq_nonneg (t * t - t),
      mul_nonneg (sub_nonneg.2 ht0) (sub_nonneg.2 ht1), sq_nonneg (t - 0.9996)]
  have heub : Real.exp (-z * z / 2) ≤ 1 := by
    calc Real.exp (-z * z / 2) ≤ Real.exp 0 := Real.exp_le_exp.2 (by nlinarith)
    _ = 1 := Real.exp_zero
  have helb : 0.999997 ≤ Real.exp (-z * z / 2) := by
    have h := Real.add_one_le_exp (-z * z / 2)
    nlinarith
  have hQub : (1 / (1 + 0.2316419 * z)) * polyP (1 / (1 + 0.2316419 * z)) ≤ 1 * 1.26 :=
    mul_le_mul ht1 hP1 (le_trans (by norm_num) hP0) (by norm_num)
  have hQlb : 0.9996 * 1.24 ≤ (1 / (1 + 0.2316419 * z)) * polyP (1 / (1 + 0.2316419 * z)) :=
    mul_le_mul ht0 hP0 (by norm_num) htpos.le
  have e2 : tailP z = 0.39894228040 * (Real.exp (-z * z / 2)
      * ((1 / (1 + 0.2316419 * z)) * polyP (1 / (1 + 0.2316419 * z)))) := by
    rw [tailP]; ring
  have hEQub : Real.exp (-z * z / 2)
      * ((1 / (1 + 0.2316419 * z)) * polyP (1 / (1 + 0.2316419 * z))) ≤ 1 * (1 * 1.26) :=
    mul_le_mul heub hQub (le_trans (by norm_num) hQlb) (by norm_num)
  have hEQlb : 0.999997 * (0.9996 * 1.24) ≤ Real.exp (-z * z / 2)
      * ((1 / (1 + 0.2316419 * z)) * polyP (1 / (1 + 0.2316419 * z))) :=
    mul_le_mul helb hQlb (by norm_num) (Real.exp_pos _).le
  rw [abs_lt]
  constructor
  · nlinarith [e2, hEQub]
  · nlinarith [e2, hEQlb]

/-- C4 (counterexample): in the at-target scenario (spot 3000, target
3000, horizon 10 minutes, volatility 60, neutral bias) the z-score the
model computes is a small positive number, not a negative one: the Itô
correction makes the drift-adjusted term negative, so the standardized
distance `(0 − driftTerm) / diffusionTerm` is positive. -/
theorem at_target_zscore_positive :
    (model atTargetInputs).zScore = JsVal.num z4 ∧ 0 < z4 :=
  ⟨(model_real_reduction atTargetInputs (by norm_num [atTargetInputs])
      (by norm_num [atTargetInputs]) (by norm_num [atTargetInputs])
      (by norm_num [atTargetInputs])).1, z4_pos⟩

/-- C4 (amended): in the at-target scenario the probability is within
1/100 of one half, the z-score is a small positive number (below 0.0017),
and the direction is below because target == spot fails the strict
greater-than comparison. -/
theorem at_target_scenario :
    (model atTargetInputs).direction = Direction.below ∧
    (model atTargetInputs).zScore = JsVal.num z4 ∧
    0 < z4 ∧ z4 < 0.0017 ∧
    (model atTargetInputs).probability = JsVal.num (cumulativeDistribution z4) ∧
    |cumulativeDistribution z4 - 1 / 2| < 1 / 100 := by
  obtain ⟨hz, hdir, hprob⟩ := model_real_reduction atTargetInputs
    (by norm_num [atTargetInputs]) (by norm_num [atTargetInputs])
    (by norm_num [atTargetInputs]) (by norm_num [atTargetInputs])
  have hKS : ¬(atTargetInputs.targetPrice > atTargetInputs.livePrice) := by
    norm_num [atTargetInputs]
  refine ⟨?_, hz, z4_pos, z4_lt, ?_, cdf_near_half z4_pos z4_lt⟩
  · rw [hdir, if_neg hKS]
  · rw [hprob, if_neg hKS]
    rfl

/-- C8: holding spot, horizon, volatility and bias fixed, moving the
target away from spot strictly decreases the probability: for targets
above spot a larger target gives a strictly smaller probability, and for
targets below spot a smaller target gives a strictly smaller
probability. -/
theorem probability_strict_anti_target (S m v : ℝ) (b : TrendBias) (K₁ K₂ : ℝ)
    (hS : 0 < S) (hm : 0 < m) (hv : 0 < v)
    (hK : (S < K₁ ∧ K₁ < K₂) ∨ (0 < K₂ ∧ K₂ < K₁ ∧ K₁ < S)) :
    ∃ p₁ p₂ : ℝ,
      (model ⟨S, K₁, m, v, b⟩).probability = JsVal.num p₁ ∧
      (model ⟨S, K₂, m, v, b⟩).probability = JsVal.num p₂ ∧
      p₂ < p₁ := by
  have hK₁pos : 0 < K₁ := by
    rcases hK with ⟨h1, _⟩ | ⟨h1, h2, _⟩
    · exact lt_trans hS h1
    · exact lt_trans h1 h2
  have hK₂pos : 0 < K₂ := by
    rcases hK with ⟨h1, h2⟩ | ⟨h1, _, _⟩
    · exact lt_trans (lt_trans hS h1) h2
    · exact h1
  obtain ⟨_, _, hp₁⟩ := model_real_reduction ⟨S, K₁, m, v, b⟩ hS hK₁pos hm hv
  obtain ⟨_, _, hp₂⟩ := model_real_reduction ⟨S, K₂, m, v, b⟩ hS hK₂pos hm hv
  dsimp only at hp₁ hp₂
  have hD : (0:ℝ) < (v / 100) * Real.sqrt (m / 525600) := by positivity
  rcases hK with ⟨h1, h2⟩ | ⟨h1, h2, h3⟩
  · have hlog : Real.log (K₁ / S) < Real.log (K₂ / S) :=
      Real.log_lt_log (div_pos hK₁pos hS) ((div_lt_div_right hS).2 h2)
    have hz : zReal ⟨S, K₁, m, v, b⟩ < zReal ⟨S, K₂, m, v, b⟩ := by
      rw [zReal, zReal]
      exact (div_lt_div_right hD).2 (sub_lt_sub_right hlog _)
    have hcdf := cdf_lt_cdf hz
    refine ⟨1 - cumulativeDistribution (zReal ⟨S, K₁, m, v, b⟩),
      1 - cumulativeDistribution (zReal ⟨S, K₂, m, v, b⟩), ?_, ?_, by linarith⟩
    · rw [hp₁, if_pos h1]
    · rw [hp₂, if_pos (lt_trans h1 h2)]
  · have hlog : Real.log (K₂ / S) < Real.log (K₁ / S) :=
      Real.log_lt_log (div_pos hK₂pos hS) ((div_lt_div_right hS).2 h2)
    have hz : zReal ⟨S, K₂, m, v, b⟩ < zReal ⟨S, K₁, m, v, b⟩ := by
      rw [zReal, zReal]
      exact (div_lt_div_right hD).2 (sub_lt_sub_right hlog _)
    have hcdf := cdf_lt_cdf hz
    refine ⟨cumulativeDistribution (zReal ⟨S, K₁, m, v, b⟩),
      cumulativeDistribution (zReal ⟨S, K₂, m, v, b⟩), ?_, ?_, hcdf⟩
    · rw [hp₁, if_neg (not_lt.2 h3.le)]
    · rw [hp₂, if_neg (not_lt.2 (lt_trans h2 h3).le)]

/-- Witness for C8 at spot 3000, targets 3100 < 3200 above spot. -/
theorem probability_strict_anti_target_witness :
    (0:ℝ) < 3000 ∧ (0:ℝ) < 10 ∧ (0:ℝ) < 60 ∧ ((3000:ℝ) < 3100 ∧ (3100:ℝ) < 3200) ∧
    (∃ p₁ p₂ : ℝ,
      (model ⟨3000, 3100, 10, 60, TrendBias.neutral⟩).probability = JsVal.num p₁ ∧
      (model ⟨3000, 3200, 10, 60, TrendBias.neutral⟩).probability = JsVal.num p₂ ∧
      p₂ < p₁) :=
  ⟨by norm_num, by norm_num, by norm_num, ⟨by norm_num, by norm_num⟩,
    probability_strict_anti_target 3000 10 60 TrendBias.neutral 3100 3200
      (by norm_num) (by norm_num) (by norm_num) (Or.inl ⟨by norm_num, by norm_num⟩)⟩

end EtherGBM
